import Mathlib

/-!
Shallow embedding of the core of the Frontline-UI-Studio repository:
the in-process sliding-window rate limiter (`src/apps/studio/src/lib/rate-limit.ts`)
and the role-based permission model.

Timestamps (epoch milliseconds) and counters are modelled as `Int`, matching
JavaScript number arithmetic on integral values in this range.  The module-level
`Map<string, RequestRecord[]>` store is modelled as an association list with
JavaScript `Map` semantics (`get` defaulting to the empty list, `set` replacing
in place, `delete` removing the entry); mutation is made explicit by passing the
store in and out of each operation.
-/

namespace Frontline

/-- One entry of a key's record list: `{ timestamp: number; count: number }`. -/
structure RequestRecord where
  timestamp : Int
  count : Int
  deriving DecidableEq, Repr

/-- The module-level `rateLimitStore : Map<string, RequestRecord[]>`. -/
abbrev Store := List (String × List RequestRecord)

/-- `rateLimitStore.get(k) || []` : the record list stored at `k`, or `[]`. -/
def storeGet : Store → String → List RequestRecord
  | [], _ => []
  | e :: rest, k => if e.1 = k then e.2 else storeGet rest k

/-- `rateLimitStore.set(k, v)` : replace the entry for `k` in place, or append it. -/
def storeSet : Store → String → List RequestRecord → Store
  | [], k, v => [(k, v)]
  | e :: rest, k, v => if e.1 = k then (k, v) :: rest else e :: storeSet rest k v

/-- `rateLimitStore.delete(k)` : drop the entry for `k` if present. -/
def storeDelete : Store → String → Store
  | [], _ => []
  | e :: rest, k => if e.1 = k then rest else e :: storeDelete rest k

/-- `cleanupStore()` : for each entry keep only records newer than one hour,
deleting the entry when no record survives (`src/apps/studio/src/lib/rate-limit.ts`,
`cleanupStore`). -/
def cleanupStore (now : Int) : Store → Store
  | [] => []
  | entry :: rest =>
    let validRecords :=
      entry.2.filter (fun record => decide (record.timestamp > now - 60 * 60 * 1000))
    if validRecords.isEmpty then cleanupStore now rest
    else (entry.1, validRecords) :: cleanupStore now rest

/-- Configuration of one `RateLimiter` instance (`maxRequests`, `windowMs`,
`identifier`, the latter already defaulted to `"default"` by the constructor). -/
structure RateLimiter where
  maxRequests : Int
  windowMs : Int
  identifier : String
  deriving DecidableEq, Repr

/-- Return value of `RateLimiter.check`. -/
structure CheckResult where
  allowed : Bool
  remaining : Int
  reset : Int
  retryAfter : Option Int
  deriving DecidableEq, Repr

/-- Return value of `RateLimiter.getStatus`. -/
structure StatusResult where
  currentRequests : Int
  remaining : Int
  reset : Int
  deriving DecidableEq, Repr

/-- The records for `"{identifier}:{key}"` surviving the per-call window
eviction `records.filter(record => record.timestamp > windowStart)`. -/
def validRecordsOf (rl : RateLimiter) (key : String) (now : Int) (store : Store) :
    List RequestRecord :=
  (storeGet store (rl.identifier ++ ":" ++ key)).filter
    (fun record => decide (record.timestamp > now - rl.windowMs))

/-- `validRecords.reduce((sum, record) => sum + record.count, 0)`. -/
def totalRequestsOf (rl : RateLimiter) (key : String) (now : Int) (store : Store) : Int :=
  (validRecordsOf rl key now store).foldl (fun sum record => sum + record.count) 0

/-- `Math.ceil(x / 1000)` on an integral millisecond difference `x`. -/
def ceilDivThousand (x : Int) : Int := ⌈((x : ℚ) / 1000)⌉

/-- `validRecords[0] ? validRecords[0].timestamp + this.windowMs : now + this.windowMs` :
the window reset time derived from the oldest surviving record. -/
def resetTimeOf (rl : RateLimiter) (key : String) (now : Int) (store : Store) : Int :=
  match (validRecordsOf rl key now store).head? with
  | some oldestRecord => oldestRecord.timestamp + rl.windowMs
  | none => now + rl.windowMs

/-- `{ timestamp: now, count: 1 }` : the record appended by an accepted `check`. -/
def mkRecord (now : Int) : RequestRecord :=
  { timestamp := now, count := 1 }

/-- `RateLimiter.check(key)` at time `now`: evict expired records, reject when
the surviving counts reach `maxRequests` (leaving the store untouched), else
append `{ timestamp: now, count: 1 }` and accept. -/
def RateLimiter.check (rl : RateLimiter) (key : String) (now : Int) (store : Store) :
    CheckResult × Store :=
  let storeKey := rl.identifier ++ ":" ++ key
  let validRecords := validRecordsOf rl key now store
  let totalRequests := totalRequestsOf rl key now store
  if totalRequests ≥ rl.maxRequests then
    ({ allowed := false, remaining := 0, reset := resetTimeOf rl key now store,
       retryAfter := some (ceilDivThousand (resetTimeOf rl key now store - now)) }, store)
  else
    ({ allowed := true,
       remaining := max 0 (rl.maxRequests - (totalRequests + 1)),
       reset := now + rl.windowMs, retryAfter := none },
     storeSet store storeKey (validRecords ++ [mkRecord now]))

/-- `RateLimiter.increment(key)` : `check` for its side effect only. -/
def RateLimiter.increment (rl : RateLimiter) (key : String) (now : Int) (store : Store) :
    Store :=
  (rl.check key now store).2

/-- `RateLimiter.reset(key)` : delete the entry for `"{identifier}:{key}"`. -/
def RateLimiter.reset (rl : RateLimiter) (key : String) (store : Store) : Store :=
  storeDelete store (rl.identifier ++ ":" ++ key)

/-- `RateLimiter.getStatus(key)` at time `now`: the same window filtering as
`check`, with no store mutation. -/
def RateLimiter.getStatus (rl : RateLimiter) (key : String) (now : Int) (store : Store) :
    StatusResult × Store :=
  let totalRequests := totalRequestsOf rl key now store
  ({ currentRequests := totalRequests,
     remaining := max 0 (rl.maxRequests - totalRequests),
     reset := resetTimeOf rl key now store }, store)

/-- A sequence of `check` calls on one key at the given times, threading the
store and collecting the results in order. -/
def runChecks (rl : RateLimiter) (key : String) : List Int → Store → List CheckResult × Store
  | [], store => ([], store)
  | t :: ts, store =>
    let r := rl.check key t store
    let rest := runChecks rl key ts r.2
    (r.1 :: rest.1, rest.2)

/-! ## Permission model (`Role-Based Permission System`) -/

/-- `WorkspaceRole = "owner" | "editor" | "viewer"`. -/
inductive WorkspaceRole where
  | owner
  | editor
  | viewer
  deriving DecidableEq, Fintype, Repr

/-- `Permission = keyof typeof ROLE_PERMISSIONS.owner` : the fourteen
permission keys of the matrix. -/
inductive Permission where
  | can_update_workspace
  | can_delete_workspace
  | can_make_workspace_public
  | can_add_members
  | can_remove_members
  | can_change_member_roles
  | can_send_invitations
  | can_create_components
  | can_update_components
  | can_delete_components
  | can_set_canonical_version
  | can_view_components
  | can_view_analytics
  | can_view_activity
  deriving DecidableEq, Fintype, Repr

/-- The literal `ROLE_PERMISSIONS` table, cell for cell. -/
def ROLE_PERMISSIONS (role : WorkspaceRole) (p : Permission) : Bool :=
  match role, p with
  | .owner, .can_update_workspace => true
  | .owner, .can_delete_workspace => true
  | .owner, .can_make_workspace_public => true
  | .owner, .can_add_members => true
  | .owner, .can_remove_members => true
  | .owner, .can_change_member_roles => true
  | .owner, .can_send_invitations => true
  | .owner, .can_create_components => true
  | .owner, .can_update_components => true
  | .owner, .can_delete_components => true
  | .owner, .can_set_canonical_version => true
  | .owner, .can_view_components => true
  | .owner, .can_view_analytics => true
  | .owner, .can_view_activity => true
  | .editor, .can_update_workspace => false
  | .editor, .can_delete_workspace => false
  | .editor, .can_make_workspace_public => false
  | .editor, .can_add_members => false
  | .editor, .can_remove_members => false
  | .editor, .can_change_member_roles => false
  | .editor, .can_send_invitations => false
  | .editor, .can_create_components => true
  | .editor, .can_update_components => true
  | .editor, .can_delete_components => true
  | .editor, .can_set_canonical_version => true
  | .editor, .can_view_components => true
  | .editor, .can_view_analytics => true
  | .editor, .can_view_activity => true
  | .viewer, .can_update_workspace => false
  | .viewer, .can_delete_workspace => false
  | .viewer, .can_make_workspace_public => false
  | .viewer, .can_add_members => false
  | .viewer, .can_remove_members => false
  | .viewer, .can_change_member_roles => false
  | .viewer, .can_send_invitations => false
  | .viewer, .can_create_components => false
  | .viewer, .can_update_components => false
  | .viewer, .can_delete_components => false
  | .viewer, .can_set_canonical_version => false
  | .viewer, .can_view_components => true
  | .viewer, .can_view_analytics => true
  | .viewer, .can_view_activity => true

/-- `hasPermission(role, permission)` : pure lookup into the matrix. -/
def hasPermission (role : WorkspaceRole) (permission : Permission) : Bool :=
  ROLE_PERMISSIONS role permission

/-- `getRolePermissions(role)` : the role's row of the matrix. -/
def getRolePermissions (role : WorkspaceRole) : Permission → Bool :=
  ROLE_PERMISSIONS role

/-- The string value of a `WorkspaceRole` as interpolated into messages. -/
def roleName : WorkspaceRole → String
  | .owner => "owner"
  | .editor => "editor"
  | .viewer => "viewer"

/-- The string value of a `Permission` key as interpolated into messages. -/
def permissionName : Permission → String
  | .can_update_workspace => "can_update_workspace"
  | .can_delete_workspace => "can_delete_workspace"
  | .can_make_workspace_public => "can_make_workspace_public"
  | .can_add_members => "can_add_members"
  | .can_remove_members => "can_remove_members"
  | .can_change_member_roles => "can_change_member_roles"
  | .can_send_invitations => "can_send_invitations"
  | .can_create_components => "can_create_components"
  | .can_update_components => "can_update_components"
  | .can_delete_components => "can_delete_components"
  | .can_set_canonical_version => "can_set_canonical_version"
  | .can_view_components => "can_view_components"
  | .can_view_analytics => "can_view_analytics"
  | .can_view_activity => "can_view_activity"

/-- JavaScript `a || b` on the optional `action` string: an absent or empty
(falsy) `action` falls back to `b`. -/
def jsOrStr (a : Option String) (b : String) : String :=
  match a with
  | some s => if s = "" then b else s
  | none => b

/-- `assertPermission(role, permission, action?)` : throws
`PERMISSION_DENIED: {role} role does not have permission to {action || permission}`
when the permission is absent, modelled as `Except`. -/
def assertPermission (role : WorkspaceRole) (permission : Permission)
    (action : Option String) : Except String Unit :=
  if !(hasPermission role permission) then
    Except.error ("PERMISSION_DENIED: " ++ roleName role ++
      " role does not have permission to " ++ jsOrStr action (permissionName permission))
  else
    Except.ok ()

/-- `needle` occurs as a contiguous substring of `hay` (stated on the
underlying character lists). -/
def containsStr (hay needle : String) : Prop :=
  ∃ s t : List Char, hay.data = s ++ needle.data ++ t

/-! ## Basic store lemmas -/

theorem storeGet_storeSet_self (s : Store) (k : String) (v : List RequestRecord) :
    storeGet (storeSet s k v) k = v := by
  induction s with
  | nil => simp [storeSet, storeGet]
  | cons e rest ih =>
    by_cases h : e.1 = k
    · simp [storeSet, storeGet, h]
    · simp [storeSet, storeGet, h, ih]

theorem storeGet_storeSet_ne (s : Store) (k : String) (v : List RequestRecord)
    (k' : String) (h : k' ≠ k) : storeGet (storeSet s k v) k' = storeGet s k' := by
  induction s with
  | nil =>
    simp only [storeSet, storeGet]
    rw [if_neg (Ne.symm h)]
  | cons e rest ih =>
    by_cases he : e.1 = k
    · have hek' : ¬e.1 = k' := fun hk => h (hk ▸ he ▸ rfl)
      simp only [storeSet, storeGet, if_pos he, if_neg hek']
      rw [if_neg (Ne.symm h)]
    · simp only [storeSet, storeGet, if_neg he]
      by_cases he' : e.1 = k'
      · rw [if_pos he', if_pos he']
      · rw [if_neg he', if_neg he', ih]

/-! ## `check` branch characterisations -/

theorem check_of_lt (rl : RateLimiter) (key : String) (now : Int) (store : Store)
    (h : totalRequestsOf rl key now store < rl.maxRequests) :
    rl.check key now store =
      ({ allowed := true,
         remaining := max 0 (rl.maxRequests - (totalRequestsOf rl key now store + 1)),
         reset := now + rl.windowMs, retryAfter := none },
       storeSet store (rl.identifier ++ ":" ++ key)
         (validRecordsOf rl key now store ++ [mkRecord now])) := by
  simp only [RateLimiter.check]
  rw [if_neg (not_le.mpr h)]

theorem check_of_ge (rl : RateLimiter) (key : String) (now : Int) (store : Store)
    (h : rl.maxRequests ≤ totalRequestsOf rl key now store) :
    rl.check key now store =
      ({ allowed := false, remaining := 0, reset := resetTimeOf rl key now store,
         retryAfter := some (ceilDivThousand (resetTimeOf rl key now store - now)) },
       store) := by
  simp only [RateLimiter.check]
  rw [if_pos h]

theorem check_snd_of_rejected (rl : RateLimiter) (key : String) (now : Int) (store : Store)
    (h : (rl.check key now store).1.allowed = false) :
    (rl.check key now store).2 = store := by
  by_cases hc : rl.maxRequests ≤ totalRequestsOf rl key now store
  · rw [check_of_ge rl key now store hc]
  · rw [check_of_lt rl key now store (not_le.mp hc)] at h
    simp at h

theorem resetTimeOf_of_nil (rl : RateLimiter) (key : String) (now : Int) (store : Store)
    (h : validRecordsOf rl key now store = []) :
    resetTimeOf rl key now store = now + rl.windowMs := by
  rw [resetTimeOf, h]
  rfl

theorem resetTimeOf_of_cons (rl : RateLimiter) (key : String) (now : Int) (store : Store)
    (r : RequestRecord) (l : List RequestRecord)
    (h : validRecordsOf rl key now store = r :: l) :
    resetTimeOf rl key now store = r.timestamp + rl.windowMs := by
  rw [resetTimeOf, h]
  rfl

theorem validRecordsOf_timestamp (rl : RateLimiter) (key : String) (now : Int) (store : Store)
    (r : RequestRecord) (h : r ∈ validRecordsOf rl key now store) :
    now - rl.windowMs < r.timestamp := by
  have := (List.mem_filter.mp h).2
  simpa using this

/-- Claim C5: whenever `check` rejects, the returned `retryAfter` is defined and
non-negative, for every limiter with a positive window, key, time and store. -/
theorem check_retryAfter_nonneg (rl : RateLimiter) (key : String) (now : Int) (store : Store)
    (hW : 0 < rl.windowMs) (hrej : (rl.check key now store).1.allowed = false) :
    ∃ ra, (rl.check key now store).1.retryAfter = some ra ∧ 0 ≤ ra := by
  by_cases hc : rl.maxRequests ≤ totalRequestsOf rl key now store
  · rw [check_of_ge rl key now store hc]
    refine ⟨_, rfl, ?_⟩
    have hres : now ≤ resetTimeOf rl key now store := by
      rcases hv : validRecordsOf rl key now store with _ | ⟨r, l⟩
      · rw [resetTimeOf_of_nil rl key now store hv]
        omega
      · rw [resetTimeOf_of_cons rl key now store r l hv]
        have hr : r ∈ validRecordsOf rl key now store := by
          rw [hv]; exact List.mem_cons_self r l
        have := validRecordsOf_timestamp rl key now store r hr
        omega
    unfold ceilDivThousand
    apply Int.ceil_nonneg
    apply div_nonneg _ (by norm_num)
    exact_mod_cast sub_nonneg.mpr hres
  · rw [check_of_lt rl key now store (not_le.mp hc)] at hrej
    simp at hrej

/-- Witness for C5 at a concrete rejected call. -/
theorem check_retryAfter_nonneg_witness :
    ∃ ra, ((RateLimiter.check ⟨1, 1000, "r"⟩ "k"
        500 [("r:k", [{ timestamp := 0, count := 1 }])]).1.retryAfter = some ra ∧ 0 ≤ ra) :=
  check_retryAfter_nonneg ⟨1, 1000, "r"⟩ "k" 500 [("r:k", [{ timestamp := 0, count := 1 }])]
    (by norm_num) (by decide)

/-- Claim C6: `getStatus` never modifies the store, and a repeated call (the
second one running on the store returned by the first) yields the identical
result. -/
theorem getStatus_readonly_idempotent (rl : RateLimiter) (key : String) (now : Int)
    (store : Store) :
    (rl.getStatus key now store).2 = store ∧
    (rl.getStatus key now (rl.getStatus key now store).2).1 = (rl.getStatus key now store).1 :=
  ⟨rfl, rfl⟩

/-- Claim C7: a key whose last `check` (at time `tLast`) was rejected, and all
of whose stored records carry timestamps at most `tLast`, is accepted again with
`remaining = maxRequests - 1` once strictly more than `windowMs` has elapsed. -/
theorem exhausted_key_recovers_after_window (rl : RateLimiter) (key : String) (store : Store)
    (tLast now : Int) (hmax : 0 < rl.maxRequests)
    (hrej : (rl.check key tLast store).1.allowed = false)
    (hts : ∀ r ∈ storeGet store (rl.identifier ++ ":" ++ key), r.timestamp ≤ tLast)
    (hwait : tLast + rl.windowMs < now) :
    (rl.check key now ((rl.check key tLast store).2)).1.allowed = true ∧
    (rl.check key now ((rl.check key tLast store).2)).1.remaining = rl.maxRequests - 1 := by
  rw [check_snd_of_rejected rl key tLast store hrej]
  have hnil : validRecordsOf rl key now store = [] := by
    rw [validRecordsOf]
    rw [List.filter_eq_nil_iff]
    intro r hr
    have := hts r hr
    simp only [decide_eq_true_eq]
    omega
  have htot : totalRequestsOf rl key now store = 0 := by
    rw [totalRequestsOf, hnil]
    rfl
  rw [check_of_lt rl key now store (by omega)]
  refine ⟨rfl, ?_⟩
  simp only [htot]
  omega

/-- Witness for C7: limiter `{maxRequests := 1, windowMs := 1000}` exhausted at
`t = 500` accepts again at `t = 1600`. -/
theorem exhausted_key_recovers_after_window_witness :
    (RateLimiter.check ⟨1, 1000, "r"⟩ "k" 1600
        ((RateLimiter.check ⟨1, 1000, "r"⟩ "k" 500
          [("r:k", [{ timestamp := 0, count := 1 }])]).2)).1.allowed = true ∧
    (RateLimiter.check ⟨1, 1000, "r"⟩ "k" 1600
        ((RateLimiter.check ⟨1, 1000, "r"⟩ "k" 500
          [("r:k", [{ timestamp := 0, count := 1 }])]).2)).1.remaining = 1 - 1 :=
  exhausted_key_recovers_after_window ⟨1, 1000, "r"⟩ "k"
    [("r:k", [{ timestamp := 0, count := 1 }])] 500 1600
    (by norm_num) (by decide) (by decide) (by norm_num)

/-- Claim C4: a rejected `check` returns the store exactly as it was; an
accepted `check` replaces only the entry of `"{identifier}:{key}"`, storing that
key's surviving records with the single new record appended, and every other
key's records are unchanged. -/
theorem check_store_frame (rl : RateLimiter) (key : String) (now : Int) (store : Store) :
    ((rl.check key now store).2 =
      if (rl.check key now store).1.allowed then
        storeSet store (rl.identifier ++ ":" ++ key)
          (validRecordsOf rl key now store ++ [mkRecord now])
      else store) ∧
    ∀ k', k' ≠ rl.identifier ++ ":" ++ key →
      storeGet (rl.check key now store).2 k' = storeGet store k' := by
  by_cases hc : rl.maxRequests ≤ totalRequestsOf rl key now store
  · rw [check_of_ge rl key now store hc]
    exact ⟨rfl, fun _ _ => rfl⟩
  · rw [check_of_lt rl key now store (not_le.mp hc)]
    exact ⟨rfl, fun k' hk' => storeGet_storeSet_ne store _ _ k' hk'⟩

/-- Witness for C4 at a concrete accepted call with an unrelated key present. -/
theorem check_store_frame_witness :
    ((RateLimiter.check ⟨2, 1000, "a"⟩ "k" 5 [("x", [{ timestamp := 3, count := 1 }])]).2 =
      if (RateLimiter.check ⟨2, 1000, "a"⟩ "k" 5
            [("x", [{ timestamp := 3, count := 1 }])]).1.allowed then
        storeSet [("x", [{ timestamp := 3, count := 1 }])] ("a" ++ ":" ++ "k")
          (validRecordsOf ⟨2, 1000, "a"⟩ "k" 5 [("x", [{ timestamp := 3, count := 1 }])] ++
            [mkRecord 5])
      else [("x", [{ timestamp := 3, count := 1 }])]) ∧
    storeGet (RateLimiter.check ⟨2, 1000, "a"⟩ "k" 5
        [("x", [{ timestamp := 3, count := 1 }])]).2 "x" =
      storeGet [("x", [{ timestamp := 3, count := 1 }])] "x" :=
  ⟨(check_store_frame ⟨2, 1000, "a"⟩ "k" 5 [("x", [{ timestamp := 3, count := 1 }])]).1,
   (check_store_frame ⟨2, 1000, "a"⟩ "k" 5 [("x", [{ timestamp := 3, count := 1 }])]).2
     "x" (by decide)⟩

/-- Claim C2 (amended): for every limiter whose window is at most one hour, the
background cleanup sweep at time `now` never removes a record that is still
inside the window (`timestamp > now - windowMs`); the record is still stored
under its key afterwards. -/
theorem cleanup_preserves_window_records (windowMs now : Int) (store : Store) (k : String)
    (rec : RequestRecord) (hW : windowMs ≤ 60 * 60 * 1000)
    (hmem : rec ∈ storeGet store k) (hvalid : now - windowMs < rec.timestamp) :
    rec ∈ storeGet (cleanupStore now store) k := by
  induction store with
  | nil => simp [storeGet] at hmem
  | cons e rest ih =>
    by_cases he : e.1 = k
    · rw [storeGet, if_pos he] at hmem
      have hrec : rec ∈ e.2.filter
          (fun record => decide (record.timestamp > now - 60 * 60 * 1000)) := by
        refine List.mem_filter.mpr ⟨hmem, ?_⟩
        simp only [decide_eq_true_eq]
        omega
      have hempty : ¬((e.2.filter
          (fun record => decide (record.timestamp > now - 60 * 60 * 1000))).isEmpty = true) := by
        rcases hfl : e.2.filter
            (fun record => decide (record.timestamp > now - 60 * 60 * 1000)) with _ | ⟨a, l⟩
        · rw [hfl] at hrec
          exact absurd hrec (List.not_mem_nil rec)
        · rw [hfl]
          exact Bool.false_ne_true
      simp only [cleanupStore, if_neg hempty]
      rw [storeGet, if_pos he]
      exact hrec
    · rw [storeGet, if_neg he] at hmem
      have htail := ih hmem
      by_cases hemp : (e.2.filter
          (fun record => decide (record.timestamp > now - 60 * 60 * 1000))).isEmpty = true
      · simp only [cleanupStore, if_pos hemp]
        exact htail
      · simp only [cleanupStore, if_neg hemp]
        rw [storeGet, if_neg he]
        exact htail

/-- Witness for C2 (amended): a one-minute-window record from 50 s ago survives
the cleanup sweep. -/
theorem cleanup_preserves_window_records_witness :
    ({ timestamp := 50000, count := 1 } : RequestRecord) ∈
      storeGet (cleanupStore 100000 [("a:k", [{ timestamp := 50000, count := 1 }])]) "a:k" :=
  cleanup_preserves_window_records 60000 100000
    [("a:k", [{ timestamp := 50000, count := 1 }])] "a:k"
    { timestamp := 50000, count := 1 } (by norm_num) (by decide) (by norm_num)

/-- Counterexample to C2 as stated: with a two-hour window (`windowMs =
7200000`), a record from 5 000 000 ms is still inside the window at `now =
10 000 000` — `getStatus` counts it — yet the cleanup sweep deletes it. -/
theorem cleanup_evicts_inwindow_record_cex :
    ((10000000 : Int) - 7200000 < 5000000) ∧
    (RateLimiter.getStatus ⟨5, 7200000, "a"⟩ "k" 10000000
        [("a:k", [{ timestamp := 5000000, count := 1 }])]).1.currentRequests = 1 ∧
    storeGet (cleanupStore 10000000 [("a:k", [{ timestamp := 5000000, count := 1 }])]) "a:k"
      = [] := by
  refine ⟨by norm_num, ?_, ?_⟩ <;> decide

/-- Claim C10: because store keys are bare `"{identifier}:{key}"`
concatenations, the limiter with identifier `"a"` on key `"b:c"` and the
limiter with identifier `"a:b"` on key `"c"` operate on the same store entry:
one accepted call on the first exhausts the second (both have `maxRequests =
1`), and `reset` on the second clears the first. -/
theorem identifier_key_concat_collision :
    ("a" ++ ":" ++ "b:c" : String) = "a:b" ++ ":" ++ "c" ∧
    (RateLimiter.check ⟨1, 60000, "a"⟩ "b:c" 0 []).1.allowed = true ∧
    (RateLimiter.check ⟨1, 60000, "a:b"⟩ "c" 1
        ((RateLimiter.check ⟨1, 60000, "a"⟩ "b:c" 0 []).2)).1.allowed = false ∧
    (RateLimiter.check ⟨1, 60000, "a"⟩ "b:c" 2
        (RateLimiter.reset ⟨1, 60000, "a:b"⟩ "c"
          ((RateLimiter.check ⟨1, 60000, "a"⟩ "b:c" 0 []).2))).1.allowed = true := by
  refine ⟨rfl, ?_, ?_, ?_⟩ <;> decide

/-- Claim C3: the permission matrix is exactly the table of the specification:
owner holds all fourteen permissions; editor lacks exactly the three
workspace-management and four member-management permissions while holding the
four component-management ones; viewer lacks all eleven of those; and all three
roles hold the three view permissions. -/
theorem permission_matrix_matches_table :
    (∀ p, hasPermission .owner p = true) ∧
    (hasPermission .editor .can_update_workspace = false ∧
     hasPermission .editor .can_delete_workspace = false ∧
     hasPermission .editor .can_make_workspace_public = false ∧
     hasPermission .editor .can_add_members = false ∧
     hasPermission .editor .can_remove_members = false ∧
     hasPermission .editor .can_change_member_roles = false ∧
     hasPermission .editor .can_send_invitations = false) ∧
    (hasPermission .editor .can_create_components = true ∧
     hasPermission .editor .can_update_components = true ∧
     hasPermission .editor .can_delete_components = true ∧
     hasPermission .editor .can_set_canonical_version = true) ∧
    (hasPermission .viewer .can_update_workspace = false ∧
     hasPermission .viewer .can_delete_workspace = false ∧
     hasPermission .viewer .can_make_workspace_public = false ∧
     hasPermission .viewer .can_add_members = false ∧
     hasPermission .viewer .can_remove_members = false ∧
     hasPermission .viewer .can_change_member_roles = false ∧
     hasPermission .viewer .can_send_invitations = false ∧
     hasPermission .viewer .can_create_components = false ∧
     hasPermission .viewer .can_update_components = false ∧
     hasPermission .viewer .can_delete_components = false ∧
     hasPermission .viewer .can_set_canonical_version = false) ∧
    (∀ r, hasPermission r .can_view_components = true ∧
      hasPermission r .can_view_analytics = true ∧
      hasPermission r .can_view_activity = true) := by
  decide

/-- Claim C8: the matrix is monotone in role rank: for every permission,
viewer's value is at most editor's, which is at most owner's (on `Bool`,
`b ≤ b'` is exactly `b = true → b' = true`). -/
theorem permission_monotone_in_role :
    ∀ p : Permission, hasPermission .viewer p ≤ hasPermission .editor p ∧
      hasPermission .editor p ≤ hasPermission .owner p := by
  decide

/-- Claim C9: `assertPermission` fails exactly when `hasPermission` is `false`
(and `hasPermission`, a total `Bool`-valued function, never fails); on failure
the message contains `"PERMISSION_DENIED"`, the role name, and the supplied
(truthy) action description or else the raw permission identifier; on success
it returns normally. -/
theorem assertPermission_spec (role : WorkspaceRole) (permission : Permission)
    (action : Option String) :
    (hasPermission role permission = true →
      assertPermission role permission action = Except.ok ()) ∧
    (hasPermission role permission = false →
      ∃ msg, assertPermission role permission action = Except.error msg ∧
        containsStr msg "PERMISSION_DENIED" ∧
        containsStr msg (roleName role) ∧
        containsStr msg (jsOrStr action (permissionName permission))) := by
  constructor
  · intro h
    rw [assertPermission, h]
    rfl
  · intro h
    rw [assertPermission, h]
    refine ⟨_, rfl, ?_, ?_, ?_⟩
    · exact ⟨[], (": " ++ roleName role ++ " role does not have permission to " ++
        jsOrStr action (permissionName permission)).data, by simp [String.data_append]⟩
    · exact ⟨("PERMISSION_DENIED: ").data,
        (" role does not have permission to " ++
          jsOrStr action (permissionName permission)).data, by simp [String.data_append]⟩
    · exact ⟨("PERMISSION_DENIED: " ++ roleName role ++
        " role does not have permission to ").data, [], by simp [String.data_append]⟩

/-- Witness for C9: `assertPermission("viewer", "can_delete_workspace")` fails
with a message containing the marker, the role and the permission identifier. -/
theorem assertPermission_spec_witness :
    ∃ msg, assertPermission .viewer .can_delete_workspace none = Except.error msg ∧
      containsStr msg "PERMISSION_DENIED" ∧
      containsStr msg (roleName .viewer) ∧
      containsStr msg (jsOrStr none (permissionName .can_delete_workspace)) :=
  (assertPermission_spec .viewer .can_delete_workspace none).2 (by decide)

/-! ## The first-`N`-calls behaviour of `check` (claim C1) -/

theorem foldl_count_ones (l : List RequestRecord) (h : ∀ r ∈ l, r.count = 1) :
    ∀ a : Int, l.foldl (fun sum record => sum + record.count) a = a + l.length := by
  induction l with
  | nil => intro a; simp
  | cons r l ih =>
    intro a
    rw [List.foldl_cons, ih (fun x hx => h x (List.mem_cons_of_mem r hx))]
    have hr : r.count = 1 := h r (List.mem_cons_self r l)
    simp only [List.length_cons, hr]
    push_cast
    ring

theorem valid_total_of_map (rl : RateLimiter) (key : String) (now : Int) (store : Store)
    (pts : List Int)
    (hget : storeGet store (rl.identifier ++ ":" ++ key) = pts.map mkRecord)
    (hwin : ∀ x ∈ pts, now - rl.windowMs < x) :
    validRecordsOf rl key now store = pts.map mkRecord ∧
    totalRequestsOf rl key now store = pts.length := by
  have hv : validRecordsOf rl key now store = pts.map mkRecord := by
    rw [validRecordsOf, hget]
    apply List.filter_eq_self.mpr
    intro r hr
    obtain ⟨x, hx, rfl⟩ := List.mem_map.mp hr
    simp only [mkRecord, decide_eq_true_eq]
    exact hwin x hx
  refine ⟨hv, ?_⟩
  rw [totalRequestsOf, hv, foldl_count_ones]
  · simp
  · intro r hr
    obtain ⟨x, _, rfl⟩ := List.mem_map.mp hr
    rfl

theorem check_step_accept (rl : RateLimiter) (key : String) (now : Int) (store : Store)
    (pts : List Int)
    (hget : storeGet store (rl.identifier ++ ":" ++ key) = pts.map mkRecord)
    (hwin : ∀ x ∈ pts, now - rl.windowMs < x)
    (hlt : (pts.length : Int) < rl.maxRequests) :
    (rl.check key now store).1.allowed = true ∧
    (rl.check key now store).1.remaining = rl.maxRequests - pts.length - 1 ∧
    (rl.check key now store).2 =
      storeSet store (rl.identifier ++ ":" ++ key) ((pts ++ [now]).map mkRecord) := by
  obtain ⟨hv, ht⟩ := valid_total_of_map rl key now store pts hget hwin
  rw [check_of_lt rl key now store (by omega)]
  refine ⟨rfl, ?_, ?_⟩
  · simp only [ht]
    omega
  · rw [hv]
    simp [List.map_append]

theorem check_step_reject (rl : RateLimiter) (key : String) (now : Int) (store : Store)
    (pts : List Int)
    (hget : storeGet store (rl.identifier ++ ":" ++ key) = pts.map mkRecord)
    (hwin : ∀ x ∈ pts, now - rl.windowMs < x)
    (hge : rl.maxRequests ≤ (pts.length : Int)) :
    (rl.check key now store).1.allowed = false ∧
    (rl.check key now store).1.remaining = 0 ∧
    (rl.check key now store).2 = store := by
  obtain ⟨hv, ht⟩ := valid_total_of_map rl key now store pts hget hwin
  rw [check_of_ge rl key now store (by omega)]
  exact ⟨rfl, rfl, rfl⟩

/-- The `(allowed, remaining)` projections predicted for a run of `len` calls
starting from `k` already-stored in-window records, against a limit of `N`. -/
def expectedSeq (N : Int) : ℕ → ℕ → List (Bool × Int)
  | _, 0 => []
  | k, len + 1 =>
    if (k : Int) < N then (true, N - k - 1) :: expectedSeq N (k + 1) len
    else (false, 0) :: expectedSeq N k len

theorem expectedSeq_succ (N : Int) (k len : ℕ) :
    expectedSeq N k (len + 1) =
      if (k : Int) < N then (true, N - k - 1) :: expectedSeq N (k + 1) len
      else (false, 0) :: expectedSeq N k len := rfl

theorem expectedSeq_of_ge (N : Int) (k : ℕ) (hk : N ≤ (k : Int)) :
    ∀ len, expectedSeq N k len = List.replicate len (false, 0) := by
  intro len
  induction len with
  | zero => rfl
  | succ len ih =>
    rw [expectedSeq_succ, if_neg (not_lt.mpr hk), ih]
    rfl

theorem runChecks_cons (rl : RateLimiter) (key : String) (t : Int) (ts : List Int)
    (store : Store) :
    runChecks rl key (t :: ts) store =
      ((rl.check key t store).1 :: (runChecks rl key ts (rl.check key t store).2).1,
        (runChecks rl key ts (rl.check key t store).2).2) := rfl

theorem runChecks_expectedSeq (rl : RateLimiter) (key : String) (base : Int) :
    ∀ (ts pts : List Int) (store : Store),
    storeGet store (rl.identifier ++ ":" ++ key) = pts.map mkRecord →
    (∀ x ∈ pts, base ≤ x ∧ x < base + rl.windowMs) →
    (∀ x ∈ ts, base ≤ x ∧ x < base + rl.windowMs) →
    (runChecks rl key ts store).1.map (fun r => (r.allowed, r.remaining))
      = expectedSeq rl.maxRequests pts.length ts.length := by
  intro ts
  induction ts with
  | nil => intro pts store _ _ _; rfl
  | cons t ts ih =>
    intro pts store hget hpts hts
    have htwin : ∀ x ∈ pts, t - rl.windowMs < x := by
      intro x hx
      have h1 := hpts x hx
      have h2 := hts t (List.mem_cons_self t ts)
      omega
    rw [runChecks_cons, List.map_cons, List.length_cons, expectedSeq_succ]
    by_cases hc : (pts.length : Int) < rl.maxRequests
    · obtain ⟨ha, hr, hs⟩ := check_step_accept rl key t store pts hget htwin hc
      rw [if_pos hc, ha, hr]
      congr 1
      have hget' : storeGet (rl.check key t store).2 (rl.identifier ++ ":" ++ key)
          = (pts ++ [t]).map mkRecord := by
        rw [hs, storeGet_storeSet_self]
      have := ih (pts ++ [t]) (rl.check key t store).2 hget'
        (by
          intro x hx
          rcases List.mem_append.mp hx with h | h
          · exact hpts x h
          · have : x = t := by simpa using h
            subst this
            exact hts x (List.mem_cons_self x ts))
        (fun x hx => hts x (List.mem_cons_of_mem t hx))
      rw [this]
      simp
    · push_neg at hc
      obtain ⟨ha, hr, hs⟩ := check_step_reject rl key t store pts hget htwin hc
      rw [if_neg (not_lt.mpr hc), ha, hr]
      congr 1
      rw [hs]
      exact ih pts store hget hpts (fun x hx => hts x (List.mem_cons_of_mem t hx))

theorem expectedSeq_eq_range (N : Int) :
    ∀ (len k : ℕ), expectedSeq N k len = (List.range len).map
      (fun j => if ((k + j : ℕ) : Int) < N then ((true : Bool), N - (k + j : ℕ) - 1)
        else (false, 0)) := by
  intro len
  induction len with
  | zero => intro k; rfl
  | succ len ih =>
    intro k
    rw [List.range_succ_eq_map, List.map_cons, List.map_map]
    have hcomp :
        ((fun j => if ((k + j : ℕ) : Int) < N then ((true : Bool), N - (k + j : ℕ) - 1)
            else (false, 0)) ∘ Nat.succ)
          = (fun j => if ((k + 1 + j : ℕ) : Int) < N
              then ((true : Bool), N - (k + 1 + j : ℕ) - 1) else (false, 0)) := by
      funext j
      have hkj : k + Nat.succ j = k + 1 + j := by omega
      simp only [Function.comp_apply, hkj]
    rw [hcomp, ← ih (k + 1), expectedSeq_succ]
    by_cases hk : (k : Int) < N
    · rw [if_pos hk]
      have hhead : ((k + 0 : ℕ) : Int) < N := by simpa using hk
      rw [if_pos hhead]
      simp
    · rw [if_neg hk]
      have hhead : ¬(((k + 0 : ℕ) : Int) < N) := by simpa using hk
      rw [if_neg hhead]
      have hge : N ≤ (k : Int) := not_lt.mp hk
      rw [expectedSeq_of_ge N k hge, expectedSeq_of_ge N (k + 1) (by push_cast; omega)]

/-- Claim C1: for a limiter with `maxRequests = N > 0` and a fresh key, over
`N + 1` calls whose times all lie within `windowMs` of the first, exactly the
first `N` calls are allowed, with `remaining` counting down `N-1, ..., 0`, and
the `(N+1)`-th call is rejected with `remaining = 0`. -/
theorem check_first_maxRequests_allowed (rl : RateLimiter) (key : String) (N : ℕ)
    (t : ℕ → Int) (store : Store) (hN : rl.maxRequests = (N : Int)) (hNpos : 0 < N)
    (hinit : storeGet store (rl.identifier ++ ":" ++ key) = [])
    (hwin : ∀ i, i ≤ N → t 0 ≤ t i ∧ t i < t 0 + rl.windowMs) :
    (runChecks rl key ((List.range (N + 1)).map t) store).1.map
        (fun r => (r.allowed, r.remaining))
      = (List.range (N + 1)).map
          (fun i => if i < N then ((true : Bool), (N : Int) - i - 1) else (false, 0)) := by
  have h := runChecks_expectedSeq rl key (t 0) ((List.range (N + 1)).map t) [] store
    (by simpa using hinit) (by simp)
    (by
      intro x hx
      obtain ⟨i, hi, rfl⟩ := List.mem_map.mp hx
      have hiN : i ≤ N := by
        have := List.mem_range.mp hi
        omega
      exact ⟨(hwin i hiN).1, (hwin i hiN).2⟩)
  rw [h]
  simp only [List.length_map, List.length_range, List.length_nil, hN]
  rw [expectedSeq_eq_range]
  apply List.map_congr_left
  intro j _
  by_cases hj : j < N
  · rw [if_pos (by exact_mod_cast Nat.zero_add j ▸ hj), if_pos hj]
    simp
  · rw [if_neg (by simpa using hj), if_neg hj]

/-- Witness for C1: limiter `{maxRequests := 2, windowMs := 1000}`, three calls
at time 0 on a fresh key: results `(true, 1), (true, 0), (false, 0)`. -/
theorem check_first_maxRequests_allowed_witness :
    (runChecks ⟨2, 1000, "w"⟩ "k" ((List.range (2 + 1)).map (fun _ => (0 : Int))) []).1.map
        (fun r => (r.allowed, r.remaining))
      = [(true, 1), (true, 0), (false, 0)] :=
  (check_first_maxRequests_allowed ⟨2, 1000, "w"⟩ "k" 2 (fun _ => (0 : Int)) []
    (by norm_num) (by norm_num) rfl (fun i _ => by norm_num)).trans (by decide)

end Frontline
